import Mathlib

/-!
Verification development for the acadz-transcription audio streaming core.

The sources embedded here are:
  * `src/modules/expo-audio-stream/android/src/main/java/expo/modules/audiostream/ExpoAudioStreamModule.kt`
    (the Android module: `startRecording`, `stopRecording`, the read loop
    `startRecordingLoop`, `calculateRMS`, `shortArrayToBase64`, and the audio
    focus change listener installed by `requestAudioFocus`), and
  * `src/unnamed/part_000` (the iOS module: `startRecording`,
    `processAudioBuffer`, `calculateRMS`, `audioBufferToBase64`, the gain
    stage and the `clamped` extension).

Machine floating point is modelled by `FVal`: exact real values plus the
IEEE special values NaN and plus or minus infinity, with the operations the
source uses (division, square root, Kotlin's `coerceIn`, Swift's `clamped`)
given their IEEE behaviour on the special values.  Rounding of finite
double arithmetic is idealised to exact real arithmetic; every property
proved below is either exact on the inputs involved (integer sums, zero,
NaN propagation) or stated by the specification "within rounding".

The base64 codec and the float-to-int16 quantisation are performed by
platform libraries (`android.util.Base64`, `Foundation`, `AVAudioConverter`)
whose code is not in the repository; those two definitions are modelled
from the specification's words and are marked as such.
-/

/-! ## Base64 text encoding

Modelled from the spec: the repository encodes each block's bytes with the
platform base64 codec (`Base64.encodeToString(bytes, Base64.NO_WRAP)` on
Android, `Data.base64EncodedString()` on iOS), whose code is not in the
repository.  The spec describes it as "a standard text-safe encoding
(base64, no line wrapping)"; `b64encode` and `b64decode` below are standard
base64 with `=` padding and no line wrapping. -/

def b64alphabet : List Char :=
  "ABCDEFGHIJKLMNOPQRSTUVWXYZabcdefghijklmnopqrstuvwxyz0123456789+/".toList

/-- The character standing for a 6-bit group. -/
def encodeChar (i : ℕ) : Char := b64alphabet.getD i 'A'

/-- The 6-bit group a character stands for, `none` for a character outside
the alphabet (in particular for the padding character). -/
def decodeChar (c : Char) : Option ℕ := b64alphabet.findIdx? fun a => a == c

/-- Modelled from the spec: standard base64 of a byte sequence, no line
wrapping, `=` padding. -/
def b64encode : List ℕ → List Char
  | [] => []
  | [a] => [encodeChar (a / 4), encodeChar (a % 4 * 16), '=', '=']
  | [a, b] => [encodeChar (a / 4), encodeChar (a % 4 * 16 + b / 16),
               encodeChar (b % 16 * 4), '=']
  | a :: b :: c :: rest =>
      encodeChar (a / 4) :: encodeChar (a % 4 * 16 + b / 16) ::
      encodeChar (b % 16 * 4 + c / 64) :: encodeChar (c % 64) :: b64encode rest

/-- Modelled from the spec: standard base64 decoding, strict about padding
(padding only in the final group), `none` on malformed text. -/
def b64decode : List Char → Option (List ℕ)
  | [] => some []
  | c1 :: c2 :: c3 :: c4 :: rest =>
      match decodeChar c1, decodeChar c2 with
      | some d1, some d2 =>
          if c3 = '=' then
            if c4 = '=' ∧ rest = [] then some [d1 * 4 + d2 / 16] else none
          else
            match decodeChar c3 with
            | some d3 =>
                if c4 = '=' then
                  if rest = [] then
                    some [d1 * 4 + d2 / 16, d2 % 16 * 16 + d3 / 4]
                  else none
                else
                  match decodeChar c4, b64decode rest with
                  | some d4, some bs =>
                      some ((d1 * 4 + d2 / 16) :: (d2 % 16 * 16 + d3 / 4) ::
                            (d3 % 4 * 64 + d4) :: bs)
                  | _, _ => none
            | none => none
      | _, _ => none
  | _ => none

theorem decodeChar_encodeChar : ∀ d : ℕ, d < 64 → decodeChar (encodeChar d) = some d := by
  decide

theorem encodeChar_ne_pad : ∀ d : ℕ, d < 64 → encodeChar d ≠ '=' := by
  decide

/-- Claim C9: decoding the frame encoder's base64 (no line wrapping) text
encoding of a byte sequence returns exactly the original bytes, for every
byte sequence including the empty one.  The codec itself is the platform's
(`android.util.Base64` with `NO_WRAP` / `Data.base64EncodedString()`) and
is modelled from the spec's words as standard base64. -/
theorem claim_C9_base64_roundtrip :
    ∀ bs : List ℕ, (∀ x ∈ bs, x < 256) → b64decode (b64encode bs) = some bs := by
  intro bs
  induction bs using b64encode.induct with
  | case1 =>
      intro _
      rfl
  | case2 a =>
      intro h
      have ha : a < 256 := h a (by simp)
      have e1 := decodeChar_encodeChar (a / 4) (by omega)
      have e2 := decodeChar_encodeChar (a % 4 * 16) (by omega)
      simp only [b64encode, b64decode, e1, e2, if_pos rfl, and_self]
      have : a / 4 * 4 + a % 4 * 16 / 16 = a := by omega
      simp [this]
      omega
  | case3 a b =>
      intro h
      have ha : a < 256 := h a (by simp)
      have hb : b < 256 := h b (by simp)
      have e1 := decodeChar_encodeChar (a / 4) (by omega)
      have e2 := decodeChar_encodeChar (a % 4 * 16 + b / 16) (by omega)
      have e3 := decodeChar_encodeChar (b % 16 * 4) (by omega)
      have n3 := encodeChar_ne_pad (b % 16 * 4) (by omega)
      simp only [b64encode, b64decode, e1, e2, e3, if_neg n3, if_pos rfl]
      have h1 : a / 4 * 4 + (a % 4 * 16 + b / 16) / 16 = a := by omega
      have h2 : (a % 4 * 16 + b / 16) % 16 * 16 + b % 16 * 4 / 4 = b := by omega
      simp [h1, h2]
      omega
  | case4 a b c rest ih =>
      intro h
      have ha : a < 256 := h a (by simp)
      have hb : b < 256 := h b (by simp)
      have hc : c < 256 := h c (by simp)
      have hrest : ∀ x ∈ rest, x < 256 := by
        intro x hx
        exact h x (by simp [hx])
      have e1 := decodeChar_encodeChar (a / 4) (by omega)
      have e2 := decodeChar_encodeChar (a % 4 * 16 + b / 16) (by omega)
      have e3 := decodeChar_encodeChar (b % 16 * 4 + c / 64) (by omega)
      have e4 := decodeChar_encodeChar (c % 64) (by omega)
      have n3 := encodeChar_ne_pad (b % 16 * 4 + c / 64) (by omega)
      have n4 := encodeChar_ne_pad (c % 64) (by omega)
      simp only [b64encode, b64decode, e1, e2, e3, e4, if_neg n3, if_neg n4,
        ih hrest]
      have h1 : a / 4 * 4 + (a % 4 * 16 + b / 16) / 16 = a := by omega
      have h2 : (a % 4 * 16 + b / 16) % 16 * 16 + (b % 16 * 4 + c / 64) / 4 = b := by omega
      have h3 : (b % 16 * 4 + c / 64) % 4 * 64 + c % 64 = c := by omega
      simp [h1, h2, h3]

/-! ## Little-endian int16 bytes and the frame encoder

From `shortArrayToBase64` (Kotlin): a `ByteBuffer` of `readSize * 2` bytes
in little-endian order, one `putShort` per sample for `i in 0 until
readSize`, then base64 with `NO_WRAP`.  A 16-bit sample is stored as its
two's-complement 16-bit pattern, low byte first.  Samples are modelled as
`ℤ` (the int16 range of the source); indexing `buffer[i]` for
`i < readSize` is modelled by `List.take readSize`, so theorems carry the
source's implicit bound `readSize ≤ buffer.size`. -/

def int16LE (s : ℤ) : List ℕ := [(s % 65536).toNat % 256, (s % 65536).toNat / 256]

def shortArrayToBase64 (buffer : List ℤ) (readSize : ℕ) : List Char :=
  b64encode (((buffer.take readSize).map int16LE).flatten)

theorem int16LE_length (s : ℤ) : (int16LE s).length = 2 := rfl

theorem flatten_map_int16LE_length :
    ∀ l : List ℤ, ((l.map int16LE).flatten).length = 2 * l.length := by
  intro l
  induction l with
  | nil => rfl
  | cons x xs ih =>
      simp [int16LE, ih]
      ring

/-! ## Machine floating-point values

`FVal` is an exact model of the IEEE double/float values the RMS path
manipulates: a finite value (idealised to an exact real), NaN and the two
infinities.  Only the operations the source performs are defined, each with
its IEEE behaviour on the special values. -/

inductive FVal where
  | fin (x : ℝ)
  | nan
  | inf
  | ninf

/-- IEEE division: `0/0` is NaN, a nonzero finite value over `0` is a signed
infinity, NaN propagates, `inf/inf` is NaN, finite over infinite is `0`. -/
noncomputable def FVal.div : FVal → FVal → FVal
  | fin x, fin y =>
      if y = 0 then (if x = 0 then nan else if 0 < x then inf else ninf)
      else fin (x / y)
  | nan, _ => nan
  | _, nan => nan
  | inf, fin y => if 0 ≤ y then inf else ninf
  | ninf, fin y => if 0 ≤ y then ninf else inf
  | fin _, inf => fin 0
  | fin _, ninf => fin 0
  | inf, inf => nan
  | inf, ninf => nan
  | ninf, inf => nan
  | ninf, ninf => nan

/-- IEEE square root: NaN on negative arguments and on NaN, `inf` on `inf`. -/
noncomputable def FVal.sqrtF : FVal → FVal
  | fin x => if x < 0 then nan else fin (Real.sqrt x)
  | nan => nan
  | inf => inf
  | ninf => nan

/-- Kotlin's `coerceIn(lo, hi)`: `if (this < lo) lo else if (this > hi) hi
else this`.  Both comparisons are false for NaN, so NaN is returned
unchanged.  Swift's `clamped(to:)` from the iOS source,
`min(max(self, lo), hi)` with Swift `min`/`max`, returns the same value on
every input that reaches it (NaN propagates through Swift `max` and `min`
in first-argument position). -/
noncomputable def FVal.coerceIn (v : FVal) (lo hi : ℝ) : FVal :=
  match v with
  | fin x => if x < lo then fin lo else if hi < x then fin hi else fin x
  | nan => nan
  | inf => fin hi
  | ninf => fin lo

/-! ## The loudness meter

From `calculateRMS` (Kotlin, identically in the iOS source): sum of
`buffer[i] * buffer[i]` for `i in 0 until readSize` accumulated in a
double, `mean = sum / readSize`, `rms = sqrt(mean)`, then
`(rms / 32767.0).toFloat().coerceIn(0.0f, 1.0f)`.  Integer squares and
their sums are exact in double arithmetic for every block size the source
can produce, so the finite arithmetic is idealised to exact reals; the
special values follow IEEE as in `FVal`.  There is no guard of any kind on
`readSize` inside the function. -/

noncomputable def sumSq (buffer : List ℤ) (readSize : ℕ) : ℝ :=
  ((buffer.take readSize).map fun s : ℤ => ((s : ℝ) * s)).sum

noncomputable def calculateRMS (buffer : List ℤ) (readSize : ℕ) : FVal :=
  ((((FVal.fin (sumSq buffer readSize)).div (.fin readSize)).sqrtF).div
    (.fin 32767)).coerceIn 0 1

/-- The amplitude formula as the specification words it: RMS over the
block's samples, `sqrt(mean(sample_i^2))`, divided by 32767, clamped to
`[0.0, 1.0]`. -/
noncomputable def specAmplitude (block : List ℤ) : ℝ :=
  max 0 (min 1 (Real.sqrt ((block.map fun s : ℤ => ((s : ℝ) ^ 2)).sum / block.length) / 32767))

/-! ## The gain stage and the float-to-int16 quantisation

From `processAudioBuffer` step 0 (iOS): `boosted = sample * inputGain;
ptr[i] = max(-1.0, min(1.0, boosted))`.  Samples and gain are exact
rationals here; the property proved is exact under any rounding because
clamping bounds whatever product the hardware computes. -/

def gainStage (gain sample : ℚ) : ℚ := max (-1) (min 1 (sample * gain))

/-- Rounding to the nearest integer, ties away from zero. -/
def roundHalfAway (x : ℚ) : ℤ := if x < 0 then -⌊-x + 1 / 2⌋ else ⌊x + 1 / 2⌋

/-- Modelled from the spec: the float-to-int16 conversion the pipeline's
FormatConverter performs (in the repository it is delegated to
`AVAudioConverter`, whose code is not in the repository): "clamp each
sample to [-1.0, 1.0] before scaling by 32767 and rounding to nearest
integer (ties away from zero)". -/
def quantizeInt16 (s : ℚ) : ℤ := roundHalfAway (max (-1) (min 1 s) * 32767)

/-! ## The Android module's lifecycle

State of `ExpoAudioStreamModule` (Kotlin): the `isRecording` flag, the wake
lock, the foreground service, the audio focus, and the `audioRecord`
handle.  `hwStarts` and `hwStops` count the `AudioRecord.startRecording()`
and `AudioRecord.stop()` calls performed so far, so that claims about "the
hardware stream started exactly once more than stopped" are countable. -/

structure AndroidState where
  isRecording : Bool
  wakeLockHeld : Bool
  serviceRunning : Bool
  focusHeld : Bool
  hasAudioRecord : Bool
  hwStarts : ℕ
  hwStops : ℕ
deriving DecidableEq

def idleState : AndroidState :=
  { isRecording := false, wakeLockHeld := false, serviceRunning := false,
    focusHeld := false, hasAudioRecord := false, hwStarts := 0, hwStops := 0 }

/-- The environment a `startRecording` call runs against: whether
`RECORD_AUDIO` is granted, whether `requestAudioFocus` returns granted and
whether the fresh `AudioRecord` reaches `STATE_INITIALIZED`. -/
structure StartEnv where
  permissionGranted : Bool
  focusGranted : Bool
  recordInitOk : Bool
deriving DecidableEq

inductive StartResult where
  | ok
  | errAlreadyRecording
  | errNoPermission
  | errAudioFocus
  | errRecordInit
deriving DecidableEq

/-- The Android `startRecording` async function, step for step:
reject `E_ALREADY_RECORDING` if `isRecording`; reject `E_NO_PERMISSION` if
the permission check fails; then `startForegroundService` and
`acquireWakeLock`; reject `E_AUDIO_FOCUS` if `requestAudioFocus` is denied
(the service and the wake lock stay as they are at that point); assign
`audioRecord`; reject `E_AUDIO_RECORD_INIT` if its state is not
`STATE_INITIALIZED` (again leaving every resource as it is);
otherwise `audioRecord.startRecording()`, set `isRecording = true` and
launch the loop. -/
def startRecording (env : StartEnv) (st : AndroidState) : StartResult × AndroidState :=
  if st.isRecording then (.errAlreadyRecording, st)
  else if !env.permissionGranted then (.errNoPermission, st)
  else
    let st1 := { st with serviceRunning := true, wakeLockHeld := true }
    if !env.focusGranted then (.errAudioFocus, st1)
    else
      let st2 := { st1 with focusHeld := true, hasAudioRecord := true }
      if !env.recordInitOk then (.errRecordInit, st2)
      else
        (.ok, { st2 with hwStarts := st2.hwStarts + 1, isRecording := true })

/-- The Android `stopRecording`: clear `isRecording`, cancel the job,
`audioRecord?.stop()` and `audioRecord?.release()` (null-safe, so the stop
call only happens when a handle is held), null the handle, release the
wake lock, stop the foreground service, abandon audio focus. -/
def stopRecording (st : AndroidState) : AndroidState :=
  { isRecording := false,
    wakeLockHeld := false,
    serviceRunning := false,
    focusHeld := false,
    hasAudioRecord := false,
    hwStarts := st.hwStarts,
    hwStops := if st.hasAudioRecord then st.hwStops + 1 else st.hwStops }

inductive FocusEvent where
  | lostPermanent
  | lostTransient
  | gained
deriving DecidableEq

/-- The `OnAudioFocusChangeListener` installed by `requestAudioFocus`:
`AUDIOFOCUS_LOSS` calls `stopRecording()`; `AUDIOFOCUS_LOSS_TRANSIENT`
only sets `isRecording = false`; `AUDIOFOCUS_GAIN`, when not recording and
a handle exists, sets `isRecording = true`, calls
`audioRecord?.startRecording()` and relaunches the loop. -/
def onFocusEvent (ev : FocusEvent) (st : AndroidState) : AndroidState :=
  match ev with
  | .lostPermanent => stopRecording st
  | .lostTransient => { st with isRecording := false }
  | .gained =>
      if !st.isRecording && st.hasAudioRecord then
        { st with isRecording := true, hwStarts := st.hwStarts + 1 }
      else st

/-! ## The Android read loop

From `startRecordingLoop`: `while (isActive && isRecording)` read into the
buffer; only `if (readResult > 0)` is an `onAudioStream` event built and
sent; there is no other branch, so a non-positive read result produces
nothing and the next iteration begins.  The loop body never writes
`isRecording`, never calls `stopRecording()` and contains no other
`sendEvent` call.  `runLoop` runs the body over a finite list of
successive read results. -/

structure StreamEvent where
  data : List Char
  amplitude : FVal

noncomputable def loopIter (buffer : List ℤ) (readResult : ℤ) : Option StreamEvent :=
  if 0 < readResult then
    some { data := shortArrayToBase64 buffer readResult.toNat,
           amplitude := calculateRMS buffer readResult.toNat }
  else none

noncomputable def runLoop (buffer : List ℤ) (reads : List ℤ) : List StreamEvent :=
  reads.filterMap (loopIter buffer)

/-! ## The iOS pipeline

From `processAudioBuffer` (iOS).  A tap buffer is its `int16ChannelData`
pointer (absent for a float-format hardware buffer) with its
`frameLength`.  The `AVAudioConverter` is a platform component; its
outcome is the oracle `ConvOutcome`: `notNeeded` when the tap buffer is
already in the target format, `converted` with the produced int16 samples,
`failed` when the converter cannot be created, the output buffer cannot be
allocated, or `convert` reports an error — in each failure case the source
leaves `finalBuffer = buffer`, the original.  The gain stage mutates the
float data before conversion and is modelled separately by `gainStage`
(its effect on the int16 result is inside the converter oracle).  The
function then computes the RMS and the base64 of `finalBuffer` and always
reaches `sendEvent`; the only early return (creating the constant target
`AVAudioFormat` failing) is a platform impossibility and is not modelled. -/

structure TapBuffer where
  int16Data : Option (List ℤ)
  frameLength : ℕ

/-- The iOS `calculateRMS`: `0.0` when `int16ChannelData` is nil, otherwise
the same computation as the Kotlin `calculateRMS` over `frameLength`
samples. -/
noncomputable def swiftCalculateRMS (b : TapBuffer) : FVal :=
  match b.int16Data with
  | none => .fin 0
  | some s => calculateRMS s b.frameLength

/-- The iOS `audioBufferToBase64`: the empty string when
`int16ChannelData` is nil, otherwise base64 of `frameLength * 2`
little-endian bytes. -/
def audioBufferToBase64 (b : TapBuffer) : List Char :=
  match b.int16Data with
  | none => []
  | some s => b64encode (((s.take b.frameLength).map int16LE).flatten)

inductive ConvOutcome where
  | notNeeded
  | converted (samples : List ℤ)
  | failed

noncomputable def processAudioBuffer (buffer : TapBuffer) (conv : ConvOutcome) :
    Option StreamEvent :=
  let finalBuffer := match conv with
    | .notNeeded => buffer
    | .converted out => { int16Data := some out, frameLength := out.length }
    | .failed => buffer
  some { data := audioBufferToBase64 finalBuffer,
         amplitude := swiftCalculateRMS finalBuffer }

/-! ## The iOS module's lifecycle

From the iOS `startRecording`: reject `E_ALREADY_RECORDING` when
`isRecording`; otherwise `configureAudioSession` (may throw), then
`startAudioEngine` (creates the engine, installs the tap, `engine.start()`
may throw), then `isRecording = true`.  A throw is caught and rejected as
`E_START_RECORDING`. -/

structure SwiftState where
  isRecording : Bool
  engineCreated : Bool
  tapInstalled : Bool
  engineRunning : Bool
deriving DecidableEq

inductive SwiftResult where
  | ok
  | errAlreadyRecording
  | errStart
deriving DecidableEq

def swiftStartRecording (configOk engineStartOk : Bool) (st : SwiftState) :
    SwiftResult × SwiftState :=
  if st.isRecording then (.errAlreadyRecording, st)
  else if !configOk then (.errStart, st)
  else if !engineStartOk then
    (.errStart, { st with engineCreated := true, tapInstalled := true })
  else
    (.ok, { st with engineCreated := true, tapInstalled := true,
                    engineRunning := true, isRecording := true })

/-! ## Helper lemmas about the RMS path -/

theorem sumSq_nonneg (buffer : List ℤ) (n : ℕ) : 0 ≤ sumSq buffer n := by
  apply List.sum_nonneg
  intro x hx
  simp only [List.mem_map] at hx
  obtain ⟨s, _, rfl⟩ := hx
  exact mul_self_nonneg _

theorem FVal.div_fin (x y : ℝ) (hy : y ≠ 0) :
    FVal.div (.fin x) (.fin y) = .fin (x / y) := by
  simp [FVal.div, hy]

theorem FVal.sqrtF_fin (x : ℝ) (hx : 0 ≤ x) :
    FVal.sqrtF (.fin x) = .fin (Real.sqrt x) := by
  simp [FVal.sqrtF, not_lt.mpr hx]

theorem FVal.coerceIn_fin (x lo hi : ℝ) :
    FVal.coerceIn (.fin x) lo hi =
      if x < lo then .fin lo else if hi < x then .fin hi else .fin x := by
  simp [FVal.coerceIn]

/-- On a positive `readSize` the meter computes exactly the clamped
normalised root of the mean square, with no special value involved. -/
theorem calculateRMS_pos_eq (buffer : List ℤ) (n : ℕ) (hn : 0 < n) :
    calculateRMS buffer n =
      .fin (max 0 (min 1 (Real.sqrt (sumSq buffer n / n) / 32767))) := by
  have hne : ((n : ℝ)) ≠ 0 := Nat.cast_ne_zero.mpr hn.ne'
  have hS := sumSq_nonneg buffer n
  have hmean : 0 ≤ sumSq buffer n / n := div_nonneg hS (by positivity)
  have hx : 0 ≤ Real.sqrt (sumSq buffer n / n) / 32767 := by positivity
  unfold calculateRMS
  rw [FVal.div_fin _ _ hne, FVal.sqrtF_fin _ hmean,
    FVal.div_fin _ _ (by norm_num : (32767 : ℝ) ≠ 0), FVal.coerceIn_fin,
    if_neg (not_lt.mpr hx)]
  rcases le_or_lt (Real.sqrt (sumSq buffer n / n) / 32767) 1 with hle | hlt
  · rw [if_neg (not_lt.mpr hle), min_eq_right hle, max_eq_right hx]
  · rw [if_pos hlt, min_eq_left hlt.le, max_eq_right zero_le_one]

theorem sum_map_sq_const (c : ℤ) :
    ∀ block : List ℤ, (∀ s ∈ block, s = c) →
      (block.map fun s : ℤ => ((s : ℝ) ^ 2)).sum = block.length * (c : ℝ) ^ 2 := by
  intro block
  induction block with
  | nil => simp
  | cons x xs ih =>
      intro h
      have hx : x = c := h x (by simp)
      have hxs : ∀ s ∈ xs, s = c := fun s hs => h s (by simp [hs])
      rw [List.map_cons, List.sum_cons, ih hxs, hx, List.length_cons]
      push_cast
      ring

theorem specAmplitude_const (c : ℤ) (block : List ℤ) (hne : block ≠ [])
    (h : ∀ s ∈ block, s = c) :
    specAmplitude block = max 0 (min 1 (Real.sqrt ((c : ℝ) ^ 2) / 32767)) := by
  have hlen : ((block.length : ℝ)) ≠ 0 :=
    Nat.cast_ne_zero.mpr (List.length_pos.mpr hne).ne'
  unfold specAmplitude
  rw [sum_map_sq_const c block h, mul_comm, mul_div_assoc,
    div_self hlen, mul_one]

theorem calculateRMS_eq_specAmplitude (block : List ℤ) (hne : block ≠ []) :
    calculateRMS block block.length = .fin (specAmplitude block) := by
  have hn : 0 < block.length := List.length_pos.mpr hne
  rw [calculateRMS_pos_eq block block.length hn]
  unfold specAmplitude
  have hfun : (fun s : ℤ => ((s : ℝ) ^ 2)) = fun s : ℤ => ((s : ℝ) * s) :=
    funext fun s => pow_two ((s : ℝ))
  have hsum : sumSq block block.length =
      (block.map fun s : ℤ => ((s : ℝ) ^ 2)).sum := by
    unfold sumSq
    rw [List.take_length, hfun]
  rw [hsum]

/-- Claim C3: the specification demands that a zero-length block return
amplitude exactly 0.0 through an explicit guard in the RMS computation and
that a 0/0 division never be computed.  The source `calculateRMS` has no
such guard: on a zero-length block it computes `sum / readSize = 0.0 / 0`,
which is NaN, the square root of NaN is NaN, and Kotlin's `coerceIn`
returns NaN unchanged (both of its comparisons are false on NaN), so the
function returns NaN, not 0.0.  This theorem evaluates the embedded code
at that failing input. -/
theorem claim_C3_zero_length_is_nan :
    calculateRMS [] 0 = FVal.nan ∧ calculateRMS [] 0 ≠ FVal.fin 0 := by
  have h : calculateRMS [] 0 = FVal.nan := by
    unfold calculateRMS
    have h0 : sumSq [] 0 = 0 := by simp [sumSq]
    rw [h0]
    norm_num [FVal.div, FVal.sqrtF, FVal.coerceIn]
  refine ⟨h, ?_⟩
  rw [h]
  simp

/-- Claim C7: for every non-empty block of canonical 16-bit samples the
reported amplitude equals `clamp(sqrt(mean(sample_i^2)) / 32767, 0.0, 1.0)`
(the spec's formula, `specAmplitude`); an all-zero block yields exactly
0.0; a block of all `32767` samples yields exactly 1.0; a block of all
`-32768` samples yields 1.0 through the clamp. -/
theorem claim_C7_rms_formula :
    ∀ block : List ℤ, block ≠ [] →
      (calculateRMS block block.length = .fin (specAmplitude block))
      ∧ ((∀ s ∈ block, s = 0) → calculateRMS block block.length = .fin 0)
      ∧ ((∀ s ∈ block, s = 32767) → calculateRMS block block.length = .fin 1)
      ∧ ((∀ s ∈ block, s = -32768) → calculateRMS block block.length = .fin 1) := by
  intro block hne
  have hmain := calculateRMS_eq_specAmplitude block hne
  refine ⟨hmain, ?_, ?_, ?_⟩
  · intro h
    rw [hmain, specAmplitude_const 0 block hne h]
    rw [show (((0 : ℤ) : ℝ)) ^ 2 = 0 by norm_num, Real.sqrt_zero]
    norm_num
  · intro h
    rw [hmain, specAmplitude_const 32767 block hne h]
    rw [show (((32767 : ℤ) : ℝ)) = (32767 : ℝ) by norm_num,
      Real.sqrt_sq (by norm_num : (0 : ℝ) ≤ 32767)]
    norm_num
  · intro h
    rw [hmain, specAmplitude_const (-32768) block hne h]
    rw [show ((((-32768) : ℤ) : ℝ)) ^ 2 = (32768 : ℝ) ^ 2 by norm_num,
      Real.sqrt_sq (by norm_num : (0 : ℝ) ≤ 32768),
      min_eq_left (by norm_num : (1 : ℝ) ≤ 32768 / 32767)]
    norm_num

/-- Witness for C7 at the concrete one-sample block `[32767]`. -/
theorem claim_C7_witness :
    (calculateRMS [32767] [(32767 : ℤ)].length = .fin (specAmplitude [32767]))
    ∧ ((∀ s ∈ [(32767 : ℤ)], s = 0) →
        calculateRMS [32767] [(32767 : ℤ)].length = .fin 0)
    ∧ ((∀ s ∈ [(32767 : ℤ)], s = 32767) →
        calculateRMS [32767] [(32767 : ℤ)].length = .fin 1)
    ∧ ((∀ s ∈ [(32767 : ℤ)], s = -32768) →
        calculateRMS [32767] [(32767 : ℤ)].length = .fin 1) :=
  claim_C7_rms_formula [32767] (List.cons_ne_nil _ _)

/-- Witness for C9: the empty sequence and a concrete three-byte sequence
round-trip. -/
theorem claim_C9_witness :
    b64decode (b64encode []) = some []
    ∧ b64decode (b64encode [77, 0, 255]) = some [77, 0, 255] :=
  ⟨claim_C9_base64_roundtrip [] (by decide),
   claim_C9_base64_roundtrip [77, 0, 255] (by decide)⟩

/-- Claim C1: the spec's invariant says the keep-alive (wake lock plus
foreground service) is released exactly once on every exit path, and in
particular released before a `startRecording` error is reported.  The
source acquires both before checking audio focus and before checking
`AudioRecord` initialisation, and its two rejection paths
(`E_AUDIO_FOCUS`, `E_AUDIO_RECORD_INIT`) return without any release: this
theorem evaluates the embedded `startRecording` at both failing inputs
from `Idle` and shows the error reported with the wake lock still held and
the foreground service still running, while the session is not active. -/
theorem claim_C1_keepalive_leaked_on_error :
    ((startRecording ⟨true, false, true⟩ idleState).1 = .errAudioFocus
      ∧ (startRecording ⟨true, false, true⟩ idleState).2.wakeLockHeld = true
      ∧ (startRecording ⟨true, false, true⟩ idleState).2.serviceRunning = true
      ∧ (startRecording ⟨true, false, true⟩ idleState).2.isRecording = false)
    ∧ ((startRecording ⟨true, true, false⟩ idleState).1 = .errRecordInit
      ∧ (startRecording ⟨true, true, false⟩ idleState).2.wakeLockHeld = true
      ∧ (startRecording ⟨true, true, false⟩ idleState).2.serviceRunning = true
      ∧ (startRecording ⟨true, true, false⟩ idleState).2.isRecording = false) := by
  decide

/-- Claim C2: the spec demands that a non-positive mid-session read result
escalate to a forced stop with a distinct "terminated by error"
notification.  The source's loop body only acts `if (readResult > 0)` and
has no other branch, so a failed read produces no event of any kind, stops
nothing, and the loop proceeds with the remaining reads exactly as if the
failed read had not happened.  This theorem states that silent
continuation. -/
theorem claim_C2_silent_read_failure :
    ∀ (buffer : List ℤ) (r : ℤ) (rest : List ℤ), r ≤ 0 →
      runLoop buffer (r :: rest) = runLoop buffer rest := by
  intro buffer r rest h
  have hiter : loopIter buffer r = none := by
    simp [loopIter, not_lt.mpr h]
  simp [runLoop, List.filterMap_cons, hiter]

/-- Witness for C2: a `-1` read result (the loop's null-handle fallback and
`AudioRecord`'s generic error value) contributes nothing. -/
theorem claim_C2_witness :
    runLoop [7] [-1] = runLoop [7] [] :=
  claim_C2_silent_read_failure [7] (-1) [] (by decide)

/-- Claim C5: from `Idle`, the sequence `[start, FocusEvent.LostTransient,
FocusEvent.Gained]` does end with the session active, but the hardware
stream has then been started twice and stopped zero times — not "exactly
once more than stopped" as claimed: the transient loss only clears
`isRecording` without stopping the `AudioRecord`, and the gain handler
calls `startRecording()` on the retained handle again. -/
theorem claim_C5_counterexample :
    (onFocusEvent .gained (onFocusEvent .lostTransient
        (startRecording ⟨true, true, true⟩ idleState).2)).isRecording = true
    ∧ (onFocusEvent .gained (onFocusEvent .lostTransient
        (startRecording ⟨true, true, true⟩ idleState).2)).hwStarts = 2
    ∧ (onFocusEvent .gained (onFocusEvent .lostTransient
        (startRecording ⟨true, true, true⟩ idleState).2)).hwStops = 0
    ∧ ¬((onFocusEvent .gained (onFocusEvent .lostTransient
        (startRecording ⟨true, true, true⟩ idleState).2)).hwStarts =
      (onFocusEvent .gained (onFocusEvent .lostTransient
        (startRecording ⟨true, true, true⟩ idleState).2)).hwStops + 1) := by
  decide

/-- Claim C5 as amended: the sequence ends active on the single retained
`AudioRecord` handle, with `startRecording()` called twice and `stop()`
never called — the same handle is restarted without an intervening stop,
and no second handle is ever created. -/
theorem claim_C5_amended_trace :
    (onFocusEvent .gained (onFocusEvent .lostTransient
        (startRecording ⟨true, true, true⟩ idleState).2)) =
      { isRecording := true, wakeLockHeld := true, serviceRunning := true,
        focusHeld := true, hasAudioRecord := true, hwStarts := 2,
        hwStops := 0 } := by
  decide

/-- Claim C6: a second `start()` without an intervening `stop()` is
rejected as already recording and has no side effect at all — the returned
state is the pre-call state on both platforms, so the first call's session
keeps running and no resource flag, handle or counter changes. -/
theorem claim_C6_already_active_no_side_effect :
    (∀ (env : StartEnv) (st : AndroidState), st.isRecording = true →
        startRecording env st = (.errAlreadyRecording, st))
    ∧ (∀ (configOk engineStartOk : Bool) (st : SwiftState),
        st.isRecording = true →
        swiftStartRecording configOk engineStartOk st = (.errAlreadyRecording, st)) := by
  constructor
  · intro env st h
    simp [startRecording, h]
  · intro configOk engineStartOk st h
    simp [swiftStartRecording, h]

/-- Witness for C6: the rejected second call at a concrete running state,
on both platforms. -/
theorem claim_C6_witness :
    startRecording ⟨true, true, true⟩
        { isRecording := true, wakeLockHeld := true, serviceRunning := true,
          focusHeld := true, hasAudioRecord := true, hwStarts := 1, hwStops := 0 } =
      (.errAlreadyRecording,
        { isRecording := true, wakeLockHeld := true, serviceRunning := true,
          focusHeld := true, hasAudioRecord := true, hwStarts := 1, hwStops := 0 })
    ∧ swiftStartRecording true true
        { isRecording := true, engineCreated := true, tapInstalled := true,
          engineRunning := true } =
      (.errAlreadyRecording,
        { isRecording := true, engineCreated := true, tapInstalled := true,
          engineRunning := true }) :=
  ⟨claim_C6_already_active_no_side_effect.1 ⟨true, true, true⟩ _ rfl,
   claim_C6_already_active_no_side_effect.2 true true _ rfl⟩

/-- Claim C4 counterexample: a hardware-format (float) tap buffer whose
conversion fails.  The source keeps `finalBuffer = buffer` and still falls
through to `sendEvent`, so the event sink IS invoked for the failed block —
with the empty string as data and amplitude 0.0, since neither the RMS nor
the base64 step can read int16 data from the float buffer.  The claim says
the sink is not invoked for such a block. -/
theorem claim_C4_counterexample :
    processAudioBuffer { int16Data := none, frameLength := 4 } .failed =
      some { data := [], amplitude := .fin 0 } := rfl

/-- Claim C4 as amended: on conversion failure the block's converted form
is dropped and the conversion is not retried, but the event sink is still
invoked with the unconverted fallback buffer; whenever that fallback is
not in int16 format the delivered event carries empty data and amplitude
0.0. -/
theorem claim_C4_amended_sink_invoked :
    ∀ b : TapBuffer, b.int16Data = none →
      processAudioBuffer b .failed = some { data := [], amplitude := .fin 0 }
      ∧ processAudioBuffer b .failed ≠ none := by
  intro b h
  constructor
  · simp [processAudioBuffer, audioBufferToBase64, swiftCalculateRMS, h]
  · simp [processAudioBuffer]

/-- Witness for the amended C4 at a concrete five-frame float buffer. -/
theorem claim_C4_witness :
    processAudioBuffer { int16Data := none, frameLength := 5 } .failed =
      some { data := [], amplitude := .fin 0 }
    ∧ processAudioBuffer { int16Data := none, frameLength := 5 } .failed ≠ none :=
  claim_C4_amended_sink_invoked { int16Data := none, frameLength := 5 } rfl

/-- Claim C8: the gain stage output is the product hard-clamped to
`[-1, 1]`, hence of absolute value at most 1, for every positive gain and
every sample; and the concrete scenario: gain 2.0 on sample 0.5 clamps to
exactly 1.0, which the (spec-modelled) float-to-int16 quantisation maps to
32767. -/
theorem claim_C8_gain_clamp :
    (∀ gain sample : ℚ, 0 < gain →
        gainStage gain sample = max (-1) (min 1 (sample * gain))
        ∧ |gainStage gain sample| ≤ 1)
    ∧ gainStage 2 (1 / 2) = 1
    ∧ quantizeInt16 (gainStage 2 (1 / 2)) = 32767 := by
  refine ⟨?_, ?_, ?_⟩
  · intro gain sample _
    refine ⟨rfl, abs_le.mpr ⟨le_max_left _ _, ?_⟩⟩
    exact max_le (by norm_num) (min_le_left _ _)
  · norm_num [gainStage]
  · norm_num [gainStage, quantizeInt16, roundHalfAway]

/-- Witness for C8: the clamp bound instantiated at gain 3 and sample 5. -/
theorem claim_C8_witness :
    gainStage 3 5 = max (-1) (min 1 (5 * 3)) ∧ |gainStage 3 5| ≤ 1 :=
  claim_C8_gain_clamp.1 3 5 (by norm_num)

/-- Claim C10: when `0 < readResult` and `readResult` is at most the
buffer length, the emitted event is computed from exactly the first
`readResult` samples — the data is the base64 of exactly `2 * readResult`
little-endian bytes taken from those samples, and both the encoded data
and the RMS are unchanged under any change of the buffer past index
`readResult`, so stale tail samples never contribute. -/
theorem claim_C10_event_uses_exactly_read_samples :
    ∀ (buf1 buf2 : List ℤ) (n : ℕ), 0 < n → n ≤ buf1.length →
      buf1.take n = buf2.take n →
      (((buf1.take n).map int16LE).flatten).length = 2 * n
      ∧ loopIter buf1 (n : ℤ) =
          some { data := b64encode (((buf1.take n).map int16LE).flatten),
                 amplitude := calculateRMS buf1 n }
      ∧ loopIter buf1 (n : ℤ) = loopIter buf2 (n : ℤ) := by
  intro buf1 buf2 n hn hlen htake
  have hpos : (0 : ℤ) < (n : ℤ) := by exact_mod_cast hn
  refine ⟨?_, ?_, ?_⟩
  · rw [flatten_map_int16LE_length, List.length_take, min_eq_left hlen]
  · simp [loopIter, hpos, shortArrayToBase64]
  · have hrms : calculateRMS buf1 n = calculateRMS buf2 n := by
      unfold calculateRMS sumSq
      rw [htake]
    have hb64 : shortArrayToBase64 buf1 n = shortArrayToBase64 buf2 n := by
      unfold shortArrayToBase64
      rw [htake]
    simp [loopIter, hpos, hrms, hb64]

/-- Witness for C10: a one-sample read over two two-sample buffers that
agree only on the first sample. -/
theorem claim_C10_witness :
    ((([(5 : ℤ), 99].take 1).map int16LE).flatten).length = 2 * 1
    ∧ loopIter [(5 : ℤ), 99] ((1 : ℕ) : ℤ) =
        some { data := b64encode ((([(5 : ℤ), 99].take 1).map int16LE).flatten),
               amplitude := calculateRMS [(5 : ℤ), 99] 1 }
    ∧ loopIter [(5 : ℤ), 99] ((1 : ℕ) : ℤ) = loopIter [(5 : ℤ), -7] ((1 : ℕ) : ℤ) :=
  claim_C10_event_uses_exactly_read_samples [5, 99] [5, -7] 1 (by decide)
    (by decide) rfl
